import Mathlib

/-!
Shallow embedding of the customer-service bot core:
`src/bot_logic.py` (`recognize_intent_entities`, `manage_dialogue`) and
`src/mock_api.py` (`track`, `return_eligible`, `get_product_info`).

Strings are modelled as Lean `String` / `List Char`.  The Python regular
expressions used by the source are each embedded as a dedicated scanning
function with Python `re` semantics (leftmost match, greedy `.*` that does
not cross a newline, word boundaries `\b`).  Character classes `\w`, `\s`,
`\d` and `str.lower`/`str.strip` are modelled at ASCII precision.
-/

namespace BotLogic

/-- Python regex `\w` (word character): letters, digits and underscore. -/
def isWordChar (c : Char) : Bool := c.isAlphanum || c = '_'

/-- Python regex `\s` / `str.strip` whitespace: space, tab, newline,
carriage return, vertical tab, form feed. -/
def isSpaceChar (c : Char) : Bool :=
  c = ' ' || c = '\t' || c = '\n' || c = '\r' || c = Char.ofNat 11 || c = Char.ofNat 12

/-- A single or double quote, as in the regex class matching quotes. -/
def isQuoteChar (c : Char) : Bool := c = Char.ofNat 39 || c = Char.ofNat 34

/-- Python `str.lower` on a character list. -/
def lowerChars (l : List Char) : List Char := l.map Char.toLower

/-- Python `str.strip` on a character list. -/
def stripChars (l : List Char) : List Char :=
  ((l.dropWhile isSpaceChar).reverse.dropWhile isSpaceChar).reverse

/-- Python `str.lower`. -/
def lower (s : String) : String := String.mk (lowerChars s.toList)

/-- Python `str.strip`. -/
def strip (s : String) : String := String.mk (stripChars s.toList)

/-- `startsWithL pat l` : `l` starts with the literal `pat`. -/
def startsWithL : List Char → List Char → Bool
  | [], _ => true
  | _ :: _, [] => false
  | p :: ps, c :: cs => p = c && startsWithL ps cs

/-- Case-insensitive `startsWithL` (the pattern is given in lower case),
for regexes compiled with `re.IGNORECASE`. -/
def startsWithLCI : List Char → List Char → Bool
  | [], _ => true
  | _ :: _, [] => false
  | p :: ps, c :: cs => p = c.toLower && startsWithLCI ps cs

/-- `re.search` of a literal: the text has the literal as a substring. -/
def containsSub (needle : List Char) : List Char → Bool
  | [] => startsWithL needle []
  | c :: rest => startsWithL needle (c :: rest) || containsSub needle rest

/-- `re.search(r'w1|w2|...', text)` for literal alternatives. -/
def containsAny (l : List Char) (ws : List String) : Bool :=
  ws.any fun w => containsSub w.toList l

/-- Python truthiness of an optional string (`None` and `''` are falsy). -/
def truthy : Option String → Bool
  | none => false
  | some s => !(s == "")

/-- `None` rendered as Python renders it in an f-string; a present value is
used as is. -/
def pyStr : Option String → String
  | none => "None"
  | some s => s

/-! ### `re.search(r'\b(\d{5})\b', message)` — order-number extraction -/

/-- A match of `\b(\d{5})\b` starting at the head of `s` (the leading `\b`
against the previous character is checked by the caller): five digits whose
following character, if any, is not a word character. -/
def orderAt : List Char → Option String
  | a :: b :: c :: d :: e :: rest =>
    if a.isDigit && b.isDigit && c.isDigit && d.isDigit && e.isDigit &&
        (match rest with | [] => true | f :: _ => !isWordChar f) then
      some (String.mk [a, b, c, d, e])
    else none
  | _ => none

/-- Leftmost match of `\b(\d{5})\b`: `prev` is the character before the
current position (`none` at the start of the text). -/
def orderScan : Option Char → List Char → Option String
  | _, [] => none
  | prev, c :: rest =>
    let boundary := match prev with | none => true | some p => !isWordChar p
    match (if boundary then orderAt (c :: rest) else none) with
    | some r => some r
    | none => orderScan (some c) rest

/-- `re.search(r'\b(\d{5})\b', s)` with its captured group. -/
def searchOrderNumber (s : String) : Option String := orderScan none s.toList

/-! ### `re.search(r'(?:about|of|for) the [\'\"]?([\w\s]+)[\'\"]?', message_lower)` -/

/-- After one of the trigger literals: an optional quote, then a non-empty
greedy run of word/space characters (the captured group), `.strip()`ped.
The trailing optional quote of the pattern does not affect the capture. -/
def prodCapture (t : List Char) : Option String :=
  let u := match t with
           | q :: rest => if isQuoteChar q then rest else q :: rest
           | [] => []
  let run := u.takeWhile fun c => isWordChar c || isSpaceChar c
  if run.isEmpty then none else some (String.mk (stripChars run))

/-- The alternation `(?:about|of|for) the ` at the head of `t`; the three
alternatives start with distinct letters, so at most one applies. -/
def prodTriggerAt (t : List Char) : Option (List Char) :=
  if startsWithL "about the ".toList t then some (t.drop 10)
  else if startsWithL "of the ".toList t then some (t.drop 7)
  else if startsWithL "for the ".toList t then some (t.drop 8)
  else none

/-- Leftmost match of the product-name pattern, returning the stripped
captured group. -/
def prodScan : List Char → Option String
  | [] => none
  | c :: rest =>
    match (match prodTriggerAt (c :: rest) with
           | some t => prodCapture t
           | none => none) with
    | some r => some r
    | none => prodScan rest

/-! ### `re.search(r'[\'\"]([\w\s]+)[\'\"]', message)` — quoted product name -/

/-- Leftmost match: a quote, a non-empty greedy run of word/space characters
(the group), then a closing quote (single or double).  Backtracking inside
the run cannot expose a quote, so the greedy run is exact. -/
def quotedScan : List Char → Option String
  | [] => none
  | c :: rest =>
    if isQuoteChar c then
      let run := rest.takeWhile fun x => isWordChar x || isSpaceChar x
      let after := rest.drop run.length
      if !run.isEmpty && (match after with | a :: _ => isQuoteChar a | [] => false) then
        some (String.mk run)
      else quotedScan rest
    else quotedScan rest

/-! ### `re.search(r'draft .* email about (\d{5})', message_lower)` -/

/-- The literal ` email about ` followed by five digits at the head of `t`,
with the captured digits. -/
def emailLitAt (t : List Char) : Option String :=
  if startsWithL " email about ".toList t then
    match t.drop 13 with
    | a :: b :: c :: d :: e :: _ =>
      if a.isDigit && b.isDigit && c.isDigit && d.isDigit && e.isDigit then
        some (String.mk [a, b, c, d, e])
      else none
    | _ => none
  else none

/-- The greedy `.*` of the email pattern: the latest position, not beyond the
first newline (`.` does not match `\n`), where ` email about \d{5}` matches. -/
def emailLast : List Char → Option String
  | [] => none
  | c :: rest =>
    if c = '\n' then none
    else
      match emailLast rest with
      | some d => some d
      | none => emailLitAt (c :: rest)

/-- Leftmost match of `draft .* email about (\d{5})` with its captured
group (the greedy `.*` selects the last viable continuation). -/
def emailScan : List Char → Option String
  | [] => none
  | c :: rest =>
    match (if startsWithL "draft ".toList (c :: rest) then emailLast (rest.drop 5)
           else none) with
    | some d => some d
    | none => emailScan rest

/-! ### `re.search(r'suggest .* outfit for ([\w\s]+)', message_lower)` -/

/-- ` outfit for ` followed by at least one word/space character at the head
of `t`. -/
def outfitLitAt (t : List Char) : Bool :=
  startsWithL " outfit for ".toList t &&
    (match t.drop 12 with | a :: _ => isWordChar a || isSpaceChar a | [] => false)

/-- Some position of `t`, not beyond the first newline, matches
` outfit for [\w\s]`. -/
def outfitAny : List Char → Bool
  | [] => false
  | c :: rest => if c = '\n' then false else outfitLitAt (c :: rest) || outfitAny rest

/-- Whether `suggest .* outfit for ([\w\s]+)` matches anywhere. -/
def outfitSearch : List Char → Bool
  | [] => false
  | c :: rest =>
    (startsWithL "suggest ".toList (c :: rest) && outfitAny (rest.drop 7))
      || outfitSearch rest

/-! ### `re.sub(r'suggest .* outfit for', '', message, flags=re.IGNORECASE)` -/

/-- The greedy `.*` of the sub pattern: the remainder of `t` after the last
occurrence of ` outfit for` (case-insensitive) not beyond the first newline. -/
def outfitSubLast : List Char → Option (List Char)
  | [] => none
  | c :: rest =>
    if c = '\n' then none
    else
      match outfitSubLast rest with
      | some r => some r
      | none =>
        if startsWithLCI " outfit for".toList (c :: rest) then some ((c :: rest).drop 11)
        else none

/-- `re.sub(r'suggest .* outfit for', '', message, flags=re.IGNORECASE)`:
every non-overlapping leftmost-greedy match is removed; scanning resumes
after each removed match.  The structural `fuel` argument bounds the number
of characters still to be consumed; each step consumes at least one, so
`fuel = l.length` (as supplied by `outfitSub`) never runs out. -/
def outfitSubF : Nat → List Char → List Char
  | _, [] => []
  | 0, l => l
  | fuel + 1, c :: rest =>
    if startsWithLCI "suggest ".toList (c :: rest) then
      match outfitSubLast (rest.drop 7) with
      | some rem => outfitSubF fuel rem
      | none => c :: outfitSubF fuel rest
    else c :: outfitSubF fuel rest

def outfitSub (l : List Char) : List Char := outfitSubF l.length l

/-! ### `re.search(r'\b(w1|w2|...)\b', message_lower)` — keyword rules -/

/-- One alternative `w` matching at the head of `t` with its trailing `\b`
(all alternatives end in a letter, so the boundary holds exactly when the
next character, if any, is not a word character). -/
def wordAltAt (w : List Char) (t : List Char) : Bool :=
  startsWithL w t && (match t.drop w.length with | a :: _ => !isWordChar a | [] => true)

/-- Whether `\b(...)\b` over the literal alternatives matches anywhere;
`prev` is the character before the current position.  All alternatives start
with a letter, so the leading `\b` holds exactly when `prev` is absent or
not a word character. -/
def wordAltScan (ws : List (List Char)) : Option Char → List Char → Bool
  | _, [] => false
  | prev, c :: rest =>
    let boundary := match prev with | none => true | some p => !isWordChar p
    (boundary && ws.any fun w => wordAltAt w (c :: rest)) || wordAltScan ws (some c) rest

def wordAlt (l : List Char) (ws : List String) : Bool :=
  wordAltScan (ws.map String.toList) none l

/-- `re.search(r'^\b(hi|hello|hey)\b', message_lower)`: anchored at the
start of the text. -/
def greetMatch (l : List Char) : Bool :=
  wordAltAt "hi".toList l || wordAltAt "hello".toList l || wordAltAt "hey".toList l

/-! ### The recognizer (`recognize_intent_entities`) -/

structure Entities where
  order_number : Option String := none
  product_name : Option String := none
deriving Repr, DecidableEq

structure NLUResult where
  intent : String
  entities : Entities
deriving Repr, DecidableEq

/-- The entity-extraction phase (lines 14-28 of `src/bot_logic.py`): order
number on the raw message; product name via the `(about|of|for) the ...`
pattern on the lowered message, then the quoted fallback on the raw
message. -/
def extractEntities (message : String) : Entities :=
  { order_number := orderScan none message.toList
    product_name :=
      match prodScan (lower message).toList with
      | some p => some p
      | none =>
        match quotedScan message.toList with
        | some q => some (lower (strip q))
        | none => none }

/-- The keyword cascade of `recognize_intent_entities` (lines 44-76 of
`src/bot_logic.py`): the intent chosen when neither generative-action
pattern matched.  The extracted entities are consulted only by the
`product_inquiry` rule (with Python truthiness). -/
def keywordIntent (ml : List Char) (message : String) (entities0 : Entities) : String :=
  if containsAny ml ["stupid", "terrible", "hate"] then "toxicity"
  else if containsAny ml ["ignore all", "system password", "previous instructions"] then "injection"
  else if containsAny ml ["rash", "medical", "health"] then "medical_advice"
  else if greetMatch ml then "greet"
  else if wordAlt ml ["track", "trak", "where is", "status of", "stuff shipped", "package arrive"] then "track_order"
  else if wordAlt ml ["return", "refund"] then "return_item"
  else if wordAlt ml ["stock", "price", "about the", "features of", "do you have"] ||
      (truthy entities0.product_name && !truthy entities0.order_number) then "product_inquiry"
  else if containsSub "shipping policy".toList ml then "faq_shipping"
  else if strip message == "" || startsWithL "asdfjkl".toList ml then "empty_or_nonsensical"
  else "out_of_scope"

/-- `recognize_intent_entities` of `src/bot_logic.py`: entity extraction,
the two Gemini patterns (which short-circuit and overwrite an entity), then
the priority cascade of keyword rules, which leaves the entities as
extracted. -/
def recognize_intent_entities (message : String) : NLUResult :=
  let ml := (lower message).toList
  let entities0 := extractEntities message
  match emailScan ml with
  | some digits =>
    { intent := "gemini_draft_email"
      entities := { entities0 with order_number := some digits } }
  | none =>
    if outfitSearch ml then
      { intent := "gemini_suggest_outfit"
        entities := { entities0 with
                      product_name := some (strip (String.mk (outfitSub message.toList))) } }
    else
      ⟨keywordIntent ml message entities0, entities0⟩

/-! ### `src/mock_api.py` -/

def MOCKED_ORDERS : List (String × String) :=
  [("12345", "Your order 12345 is currently out for delivery and should arrive today."),
   ("54321", "Your order 54321 was delivered on Tuesday."),
   ("12346", "Your order 12346 has shipped and is expected Friday."),
   ("99999", "Your order 99999 is still processing.")]

def MOCKED_RETURNS : List (String × String) :=
  [("12345", "Your order 12345 is not eligible for return as it is still in transit."),
   ("54321", "Your order 54321 is eligible for return. You can start the process here: [www.example.com/return/54321]"),
   ("12346", "Your order 12346 is eligible for return. You can start the process here: [www.example.com/return/12346]")]

def MOCKED_PRODUCTS : List (String × String) :=
  [("red shoes", "Yes, the 'Red Shoes' are in stock in sizes 8, 9, and 10."),
   ("blue shirt", "I'm sorry, the 'Blue Shirt' is currently out of stock."),
   ("skyhook", "I'm sorry, I don't see a product called 'Skyhook' in our catalog.")]

def track (order_id : String) : String :=
  (MOCKED_ORDERS.lookup order_id).getD "I'm sorry, I could not find an order with that number."

def return_eligible (order_id : String) : String :=
  (MOCKED_RETURNS.lookup order_id).getD "I'm sorry, I could not find an order with that number."

def get_product_info (product_name : String) : String :=
  (MOCKED_PRODUCTS.lookup (strip (lower product_name))).getD
    ("I'm sorry, I don't have any information on a product called '" ++ product_name ++ "'.")

/-! ### The dialogue state machine (`manage_dialogue`) -/

/-- The conversation context: the three keys `manage_dialogue` reads or
writes in the session dictionary.  An absent key is `none`. -/
@[ext]
structure Ctx where
  pending_action : Option String := none
  last_intent : Option String := none
  gemini_prompt : Option String := none
deriving Repr, DecidableEq

/-- The Gemini suggestion appended to a tracking response that contains
"processing". -/
def emailSuggestion (order_id : String) : String :=
  "\n\nIf you're concerned, you can ask me to '✨ Draft a support email about " ++ order_id ++ "'."

/-- The Gemini suggestion appended to a product response that contains
"in stock". -/
def outfitSuggestion (product_name : String) : String :=
  "\n\nYou can also ask me to '✨ Suggest an outfit for " ++ product_name ++ "'."

def withEmailSuggestion (r order_id : String) : String :=
  if containsSub "processing".toList (lower r).toList then r ++ emailSuggestion order_id else r

def withOutfitSuggestion (r product_name : String) : String :=
  if containsSub "in stock".toList (lower r).toList then r ++ outfitSuggestion product_name else r

/-- The Gemini prompt queued for `gemini_draft_email`. -/
def emailPrompt (order_id order_status : String) : String :=
  "A customer's order (" ++ order_id ++ ") has a status of '" ++ order_status ++
    "'. Draft a polite but firm email to customer support asking for an update and inquiring about the delay."

/-- The Gemini prompt queued for `gemini_suggest_outfit`. -/
def outfitPrompt (product_name product_info : String) : String :=
  "A customer is interested in a product: '" ++ product_name ++ "' (Info: '" ++ product_info ++
    "'). Suggest a complete, stylish outfit (including other clothing items and accessories) that would go well with it."

/-- `entities.get('order_number') or re.search(r'\b(\d{5})\b', message)`,
normalized to the matched string (the extracted order number is never the
empty string, so Python truthiness coincides with presence). -/
def resolveOrderId (entities : Entities) (message : String) : Option String :=
  match entities.order_number with
  | some o => some o
  | none => orderScan none message.toList

/-- Lines 94-123 of `src/bot_logic.py`: the body of the pending-action
slot-filling block, entered when `pending_action` is truthy.  Returns the
response and updated context; the initial default response survives when
the pending action is none of the three known ones. -/
def slotCore (ctx : Ctx) (message : String) (entities : Entities) : String × Ctx :=
  if ctx.pending_action = some "get_order_track" then
    match resolveOrderId entities message with
    | some order_id =>
      (withEmailSuggestion (track order_id) order_id, { ctx with pending_action := none })
    | none =>
      ("That doesn't look like a valid order number. Please provide a 5-digit order number.", ctx)
  else if ctx.pending_action = some "get_order_return" then
    match resolveOrderId entities message with
    | some order_id => (return_eligible order_id, { ctx with pending_action := none })
    | none => ("I need a 5-digit order number to process a return.", ctx)
  else if ctx.pending_action = some "get_product_info" then
    let product_name :=
      match entities.product_name with
      | some p => if p == "" then strip message else p
      | none => strip message
    (withOutfitSuggestion (get_product_info product_name) product_name,
     { ctx with pending_action := none })
  else ("I'm not sure how to help with that.", ctx)

/-- Lines 89-128 of `src/bot_logic.py`: step 2 of a turn.  Runs the
slot-filling block when `pending_action` is truthy, then the context-switch
pre-emption: when the recognized intent is not `out_of_scope` the pending
action is popped unconditionally. -/
def slotPhase (ctx : Ctx) (message : String) (intent : String) (entities : Entities) :
    String × Ctx :=
  if truthy ctx.pending_action then
    let rc := slotCore ctx message entities
    if intent = "out_of_scope" then rc
    else (rc.1, { rc.2 with pending_action := none })
  else ("I'm not sure how to help with that.", ctx)

/-- Lines 131-211 of `src/bot_logic.py`: step 3 of a turn, the dispatch on
the recognized intent, guarded by the absence of a (truthy) pending action
in the updated context. -/
def dispatchPhase (ctx : Ctx) (intent : String) (entities : Entities) (response : String) :
    String × Ctx :=
  if truthy ctx.pending_action then (response, ctx)
  else if intent = "greet" then
    ("Hi! I'm your e-commerce assistant. You can ask me to track an order, start a return, or inquire about products.",
     ctx)
  else if intent = "faq_shipping" then
    ("Our standard shipping is 3-5 business days. You can find more details here: [link]", ctx)
  else if intent = "track_order" then
    match entities.order_number with
    | some order_id =>
      (withEmailSuggestion (track order_id) order_id, { ctx with last_intent := some "track_order" })
    | none =>
      ("Sure, I can help track your order. What is your 5-digit order number?",
       { ctx with pending_action := some "get_order_track" })
  else if intent = "return_item" then
    match entities.order_number with
    | some order_id =>
      (return_eligible order_id, { ctx with last_intent := some "return_item" })
    | none =>
      ("I can help with that. What is your 5-digit order number?",
       { ctx with pending_action := some "get_order_return" })
  else if intent = "product_inquiry" then
    if truthy entities.product_name then
      let product_name := pyStr entities.product_name
      (withOutfitSuggestion (get_product_info product_name) product_name,
       { ctx with last_intent := some "product_inquiry" })
    else
      ("I can look up product information. What is the name of the product?",
       { ctx with pending_action := some "get_product_info" })
  else if intent = "gemini_draft_email" then
    let order_id := pyStr entities.order_number
    ("One moment, I'll draft that email for you... ✨",
     { ctx with gemini_prompt := some (emailPrompt order_id (track order_id)) })
  else if intent = "gemini_suggest_outfit" then
    let product_name := pyStr entities.product_name
    ("Great choice! Let me think of a good outfit for that... ✨",
     { ctx with gemini_prompt := some (outfitPrompt product_name (get_product_info product_name)) })
  else if intent = "out_of_scope" ∧ truthy entities.order_number = true ∧
      ctx.last_intent = some "track_order" then
    let order_id := pyStr entities.order_number
    (withEmailSuggestion (track order_id) order_id, ctx)
  else if intent = "empty_or_nonsensical" then
    ("I'm sorry, I didn't understand that. Please try again.", ctx)
  else if intent = "out_of_scope" then
    ("I'm sorry, I can only help with e-commerce questions, like tracking orders or processing returns.",
     ctx)
  else if intent = "toxicity" then
    ("I'm sorry you feel that way. How can I help with your order?", ctx)
  else if intent = "injection" then
    ("I'm sorry, I can't help with that.", ctx)
  else if intent = "medical_advice" then
    ("I am not a medical professional. Please consult a doctor for any health concerns.", ctx)
  else (response, ctx)

/-- `manage_dialogue` of `src/bot_logic.py` (the unused `user_id` parameter
is dropped): one turn of the dialogue state machine. -/
def manage_dialogue (session_context : Ctx) (message : String) : String × Ctx :=
  let nlu := recognize_intent_entities message
  let rc := slotPhase session_context message nlu.intent nlu.entities
  dispatchPhase rc.2 nlu.intent nlu.entities rc.1

/-- The invariant of reachable conversation contexts: `pending_action`,
when present, is one of the three slot-filling actions, and `last_intent`,
when present, is one of the three domain intents. -/
def ctxInv (c : Ctx) : Prop :=
  (c.pending_action = none ∨ c.pending_action = some "get_order_track" ∨
    c.pending_action = some "get_order_return" ∨ c.pending_action = some "get_product_info") ∧
  (c.last_intent = none ∨ c.last_intent = some "track_order" ∨
    c.last_intent = some "return_item" ∨ c.last_intent = some "product_inquiry")

/-- The context after processing a sequence of messages turn by turn,
starting from the empty context of a fresh conversation. -/
def runMessages (msgs : List String) : Ctx :=
  msgs.foldl (fun c m => (manage_dialogue c m).2) ⟨none, none, none⟩

/-- All characters of `l` are Python whitespace. -/
def allSpace (l : List Char) : Prop := ∀ c ∈ l, isSpaceChar c = true

/-! ### The claim's reading of the order-number rule (spec formulation) -/

/-- A boundary by the claim's words: any non-digit character. -/
def nonDigitBoundary (c : Char) : Bool := !c.isDigit

/-- A boundary as the regex `\b` has it: any non-word character. -/
def nonWordBoundary (c : Char) : Bool := !isWordChar c

/-- Position `i` of `s` starts a run of exactly five digits bounded on both
sides by boundaries: the start/end of the text or a character for which
`isB` holds. -/
def boundedRun5At (isB : Char → Bool) (s : List Char) (i : Nat) : Bool :=
  decide (i + 5 ≤ s.length) &&
  ((List.range 5).all fun j => (s.getD (i + j) ' ').isDigit) &&
  (decide (i = 0) || isB (s.getD (i - 1) ' ')) &&
  (decide (i + 5 = s.length) || isB (s.getD (i + 5) ' '))

/-- The first (leftmost) such run anywhere in the text, as the claim words
the order-number rule. -/
def firstBoundedRun5 (isB : Char → Bool) (s : List Char) : Option String :=
  match (List.range s.length).filter (boundedRun5At isB s) with
  | [] => none
  | i :: _ => some (String.mk ((s.drop i).take 5))

/-- `boundedRun5At` generalized over the boundary status `b0` of position
0, for reasoning about suffixes of the text. -/
def boundedRun5From (b0 : Bool) (isB : Char → Bool) (s : List Char) (i : Nat) : Bool :=
  decide (i + 5 ≤ s.length) &&
  ((List.range 5).all fun j => (s.getD (i + j) ' ').isDigit) &&
  (if i = 0 then b0 else isB (s.getD (i - 1) ' ')) &&
  (decide (i + 5 = s.length) || isB (s.getD (i + 5) ' '))

/-- `firstBoundedRun5` generalized likewise. -/
def firstFrom (b0 : Bool) (isB : Char → Bool) (s : List Char) : Option String :=
  match (List.range s.length).filter (boundedRun5From b0 isB s) with
  | [] => none
  | i :: _ => some (String.mk ((s.drop i).take 5))

/-! ## Helper lemmas about the two phases -/

/-- The slot-filling block either leaves the context unchanged or only
clears `pending_action`. -/
theorem slotCore_ctx (ctx : Ctx) (m : String) (e : Entities) :
    (slotCore ctx m e).2 = ctx ∨ (slotCore ctx m e).2 = { ctx with pending_action := none } := by
  unfold slotCore
  split_ifs
  · cases resolveOrderId e m <;> simp
  · cases resolveOrderId e m <;> simp
  · right; rfl
  · left; rfl

/-- The slot-filling block never reads the queued Gemini prompt: its
response and resulting pending action do not depend on it. -/
theorem slotCore_gp (p li : Option String) (g g' : Option String) (m : String) (e : Entities) :
    (slotCore ⟨p, li, g⟩ m e).1 = (slotCore ⟨p, li, g'⟩ m e).1 ∧
    (slotCore ⟨p, li, g⟩ m e).2.pending_action = (slotCore ⟨p, li, g'⟩ m e).2.pending_action := by
  unfold slotCore
  dsimp only
  split_ifs <;> first
    | (cases resolveOrderId e m <;> simp)
    | simp

/-- Step 2 in full: its response and resulting pending action are functions
of the context's `pending_action` alone (besides message, intent and
entities); `last_intent` and `gemini_prompt` pass through untouched; the
resulting pending action is the input one or cleared, and it is never
truthy unless the intent is `out_of_scope`. -/
theorem slotPhase_master (p li : Option String) (m : String) (i : String) (e : Entities) :
    ∃ resp pa,
      (pa = none ∨ pa = p) ∧
      (i ≠ "out_of_scope" → truthy pa = false) ∧
      ∀ g : Option String, slotPhase ⟨p, li, g⟩ m i e = (resp, ⟨pa, li, g⟩) := by
  by_cases h0 : truthy p = true
  · by_cases hi : i = "out_of_scope"
    · subst hi
      refine ⟨(slotCore ⟨p, li, none⟩ m e).1, (slotCore ⟨p, li, none⟩ m e).2.pending_action,
        ?_, by simp, ?_⟩
      · rcases slotCore_ctx ⟨p, li, none⟩ m e with h | h <;> rw [h] <;> simp
      · intro g
        have hg := slotCore_gp p li g none m e
        have hctx := slotCore_ctx ⟨p, li, g⟩ m e
        simp only [slotPhase, h0, if_true, if_pos rfl]
        rcases hctx with h | h <;>
          exact Prod.ext hg.1 (by rw [h]; exact Ctx.ext (by simpa [h] using hg.2) rfl rfl)
    · refine ⟨(slotCore ⟨p, li, none⟩ m e).1, none, Or.inl rfl, fun _ => rfl, ?_⟩
      intro g
      have hg := slotCore_gp p li g none m e
      have hctx := slotCore_ctx ⟨p, li, g⟩ m e
      simp only [slotPhase, h0, if_true, if_neg hi]
      rcases hctx with h | h <;> exact Prod.ext hg.1 (by rw [h])
  · have h0' : truthy p = false := by revert h0; cases truthy p <;> simp
    refine ⟨"I'm not sure how to help with that.", p, Or.inr rfl, fun _ => h0', ?_⟩
    intro g
    simp only [slotPhase, h0', Bool.false_eq_true, if_false]

set_option maxHeartbeats 1000000 in
/-- Step 3 in full: the dispatch response, resulting pending action and
last intent are functions of `pending_action`, `last_intent`, intent and
entities alone (never of the queued Gemini prompt); the pending action is
preserved or set to one of the three slot-filling actions; the last intent
is preserved or set to one of the three domain intents; and the Gemini
prompt is overwritten (with the email or outfit prompt built from the
entities) exactly when the dispatch runs (no truthy pending action) and the
intent is one of the two Gemini intents, and passes through untouched
otherwise. -/
theorem dispatchPhase_master (p li : Option String) (i : String) (e : Entities) (r : String) :
    ∃ resp pa la,
      (pa = p ∨ pa = some "get_order_track" ∨ pa = some "get_order_return" ∨
        pa = some "get_product_info") ∧
      (la = li ∨ la = some "track_order" ∨ la = some "return_item" ∨
        la = some "product_inquiry") ∧
      ∀ g : Option String,
        dispatchPhase ⟨p, li, g⟩ i e r =
          (resp, ⟨pa, la,
            if truthy p = false ∧ i = "gemini_draft_email" then
              some (emailPrompt (pyStr e.order_number) (track (pyStr e.order_number)))
            else if truthy p = false ∧ i = "gemini_suggest_outfit" then
              some (outfitPrompt (pyStr e.product_name) (get_product_info (pyStr e.product_name)))
            else g⟩) := by
  by_cases h0 : truthy p = true
  · exact ⟨r, p, li, Or.inl rfl, Or.inl rfl, fun g => by simp [dispatchPhase, h0]⟩
  by_cases h1 : i = "greet"
  · subst h1
    exact ⟨"Hi! I'm your e-commerce assistant. You can ask me to track an order, start a return, or inquire about products.",
      p, li, Or.inl rfl, Or.inl rfl, fun g => by simp [dispatchPhase, h0]⟩
  by_cases h2 : i = "faq_shipping"
  · subst h2
    exact ⟨"Our standard shipping is 3-5 business days. You can find more details here: [link]",
      p, li, Or.inl rfl, Or.inl rfl, fun g => by simp [dispatchPhase, h0]⟩
  by_cases h3 : i = "track_order"
  · subst h3
    cases he : e.order_number with
    | some oid =>
      exact ⟨withEmailSuggestion (track oid) oid, p, some "track_order", Or.inl rfl,
        Or.inr (Or.inl rfl), fun g => by simp [dispatchPhase, h0, he]⟩
    | none =>
      exact ⟨"Sure, I can help track your order. What is your 5-digit order number?",
        some "get_order_track", li, Or.inr (Or.inl rfl), Or.inl rfl,
        fun g => by simp [dispatchPhase, h0, he]⟩
  by_cases h4 : i = "return_item"
  · subst h4
    cases he : e.order_number with
    | some oid =>
      exact ⟨return_eligible oid, p, some "return_item", Or.inl rfl,
        Or.inr (Or.inr (Or.inl rfl)), fun g => by simp [dispatchPhase, h0, he]⟩
    | none =>
      exact ⟨"I can help with that. What is your 5-digit order number?",
        some "get_order_return", li, Or.inr (Or.inr (Or.inl rfl)), Or.inl rfl,
        fun g => by simp [dispatchPhase, h0, he]⟩
  by_cases h5 : i = "product_inquiry"
  · subst h5
    by_cases hpn : truthy e.product_name = true
    · exact ⟨withOutfitSuggestion (get_product_info (pyStr e.product_name)) (pyStr e.product_name),
        p, some "product_inquiry", Or.inl rfl, Or.inr (Or.inr (Or.inr rfl)),
        fun g => by simp [dispatchPhase, h0, hpn]⟩
    · exact ⟨"I can look up product information. What is the name of the product?",
        some "get_product_info", li, Or.inr (Or.inr (Or.inr rfl)), Or.inl rfl,
        fun g => by simp [dispatchPhase, h0, hpn]⟩
  by_cases h6 : i = "gemini_draft_email"
  · subst h6
    exact ⟨"One moment, I'll draft that email for you... ✨", p, li, Or.inl rfl, Or.inl rfl,
      fun g => by simp [dispatchPhase, h0]⟩
  by_cases h7 : i = "gemini_suggest_outfit"
  · subst h7
    exact ⟨"Great choice! Let me think of a good outfit for that... ✨", p, li, Or.inl rfl,
      Or.inl rfl, fun g => by simp [dispatchPhase, h0]⟩
  by_cases hoos : i = "out_of_scope"
  · subst hoos
    by_cases h8 : truthy e.order_number = true ∧ li = some "track_order"
    · exact ⟨withEmailSuggestion (track (pyStr e.order_number)) (pyStr e.order_number), p, li,
        Or.inl rfl, Or.inl rfl, fun g => by simp [dispatchPhase, h0, h8.1, h8.2]⟩
    · exact ⟨"I'm sorry, I can only help with e-commerce questions, like tracking orders or processing returns.",
        p, li, Or.inl rfl, Or.inl rfl, fun g => by simp [dispatchPhase, h0, h8]⟩
  by_cases h9 : i = "empty_or_nonsensical"
  · subst h9
    exact ⟨"I'm sorry, I didn't understand that. Please try again.", p, li, Or.inl rfl,
      Or.inl rfl, fun g => by simp [dispatchPhase, h0]⟩
  by_cases h11 : i = "toxicity"
  · subst h11
    exact ⟨"I'm sorry you feel that way. How can I help with your order?", p, li, Or.inl rfl,
      Or.inl rfl, fun g => by simp [dispatchPhase, h0]⟩
  by_cases h12 : i = "injection"
  · subst h12
    exact ⟨"I'm sorry, I can't help with that.", p, li, Or.inl rfl, Or.inl rfl,
      fun g => by simp [dispatchPhase, h0]⟩
  by_cases h13 : i = "medical_advice"
  · subst h13
    exact ⟨"I am not a medical professional. Please consult a doctor for any health concerns.",
      p, li, Or.inl rfl, Or.inl rfl, fun g => by simp [dispatchPhase, h0]⟩
  · exact ⟨r, p, li, Or.inl rfl, Or.inl rfl,
      fun g => by simp [dispatchPhase, h0, h1, h2, h3, h4, h5, h6, h7, hoos, h9, h11, h12, h13]⟩

/-! ## Claim theorems -/

/-- C1: slot-filling round trip for returns.  The first turn behaves as the
claim states: from the empty context, "I want to return order" yields the
clarification reply and `pending_action = get_order_return`.  The second
turn does **not**: the successful slot-fill pops `pending_action`, so the
dispatch guard `if not session_context.get('pending_action')` re-processes
the message, whose intent is `out_of_scope`, and the out-of-scope canned
reply overwrites the return-eligibility response that the slot-fill block
had computed.  `pending_action` does end cleared. -/
theorem C1_round_trip_trace :
    manage_dialogue ⟨none, none, none⟩ "I want to return order" =
      ("I can help with that. What is your 5-digit order number?",
       ⟨some "get_order_return", none, none⟩) ∧
    manage_dialogue ⟨some "get_order_return", none, none⟩ "54321" =
      ("I'm sorry, I can only help with e-commerce questions, like tracking orders or processing returns.",
       ⟨none, none, none⟩) ∧
    return_eligible "54321" =
      "Your order 54321 is eligible for return. You can start the process here: [www.example.com/return/54321]" :=
  ⟨rfl, rfl, rfl⟩

/-- C2: context-switch pre-emption.  For `pending_action = get_order_return`
and message "Track order 12345" the final response is the tracking result
for 12345 (the eligibility lookup of the slot-fill block is discarded) and
`pending_action` ends cleared; in general, for any context with a truthy
`pending_action` and any message whose recognized intent is not
`out_of_scope`, the slot-filling phase (step 2, lines 89-128) ends with
`pending_action` cleared regardless of whether slot resolution succeeded. -/
theorem C2_context_switch_preemption :
    (manage_dialogue ⟨some "get_order_return", none, none⟩ "Track order 12345" =
      ("Your order 12345 is currently out for delivery and should arrive today.",
       ⟨none, some "track_order", none⟩)) ∧
    ∀ (ctx : Ctx) (message : String),
      truthy ctx.pending_action = true →
      (recognize_intent_entities message).intent ≠ "out_of_scope" →
      (slotPhase ctx message (recognize_intent_entities message).intent
        (recognize_intent_entities message).entities).2.pending_action = none := by
  refine ⟨rfl, ?_⟩
  intro ctx message ht hi
  unfold slotPhase
  simp [ht, hi]

/-- C2 witness: the general pre-emption clause applied at the concrete
scenario of the claim. -/
theorem C2_context_switch_preemption_witness :
    (slotPhase ⟨some "get_order_return", none, none⟩ "Track order 12345"
      (recognize_intent_entities "Track order 12345").intent
      (recognize_intent_entities "Track order 12345").entities).2.pending_action = none :=
  C2_context_switch_preemption.2 ⟨some "get_order_return", none, none⟩ "Track order 12345"
    (by rfl) (by decide)

/-- C6: context continuation.  For any context with
`last_intent = track_order`, no pending action and arbitrary queued prompt,
"What about 54321?" (recognized as `out_of_scope` with order number 54321)
returns the tracking response for 54321; with "What about 99999?" the
tracking response contains "processing" and the draft-email suggestion is
appended. -/
theorem C6_context_continuation (g : Option String) :
    manage_dialogue ⟨none, some "track_order", g⟩ "What about 54321?" =
      ("Your order 54321 was delivered on Tuesday.", ⟨none, some "track_order", g⟩) ∧
    (recognize_intent_entities "What about 54321?").intent = "out_of_scope" ∧
    manage_dialogue ⟨none, some "track_order", g⟩ "What about 99999?" =
      ("Your order 99999 is still processing.\n\nIf you're concerned, you can ask me to '✨ Draft a support email about 99999'.",
       ⟨none, some "track_order", g⟩) :=
  ⟨rfl, rfl, rfl⟩

/-- C3 counterexample: a message containing the toxicity keyword "hate" and
the valid order number 12345 whose recognized intent is
`gemini_draft_email`, not `toxicity`: the generative-action patterns are
checked before the safety filters. -/
theorem C3_counterexample :
    containsAny (lower "I hate this, draft an email about 12345").toList
      ["stupid", "terrible", "hate"] = true ∧
    searchOrderNumber "I hate this, draft an email about 12345" = some "12345" ∧
    (recognize_intent_entities "I hate this, draft an email about 12345").intent =
      "gemini_draft_email" ∧
    "gemini_draft_email" ≠ "toxicity" :=
  ⟨rfl, rfl, rfl, by decide⟩

/-- C3 (amended): for every message containing a toxicity keyword and a
valid 5-digit order number, recognition never yields `track_order`, and
yields `toxicity` provided neither generative-action pattern
(`draft .* email about \d{5}`, `suggest .* outfit for [\w\s]`) matches. -/
theorem C3_toxicity_priority (message : String)
    (htox : containsAny (lower message).toList ["stupid", "terrible", "hate"] = true)
    (_hord : (searchOrderNumber message).isSome = true) :
    (recognize_intent_entities message).intent ≠ "track_order" ∧
    (emailScan (lower message).toList = none →
      outfitSearch (lower message).toList = false →
      (recognize_intent_entities message).intent = "toxicity") := by
  have htox' : containsAny (lower message).data ["stupid", "terrible", "hate"] = true := htox
  cases hem : emailScan (lower message).data with
  | some d =>
    have h1 : (recognize_intent_entities message).intent = "gemini_draft_email" := by
      simp [recognize_intent_entities, String.toList, hem]
    refine ⟨by rw [h1]; decide, ?_⟩
    intro hn _
    have h2 : emailScan (lower message).data = none := hn
    rw [hem] at h2
    cases h2
  | none =>
    cases hout : outfitSearch (lower message).data with
    | true =>
      have h1 : (recognize_intent_entities message).intent = "gemini_suggest_outfit" := by
        simp [recognize_intent_entities, String.toList, hem, hout]
      refine ⟨by rw [h1]; decide, ?_⟩
      intro _ hf
      have h2 : outfitSearch (lower message).data = false := hf
      rw [hout] at h2
      cases h2
    | false =>
      have h1 : (recognize_intent_entities message).intent = "toxicity" := by
        simp only [recognize_intent_entities, String.toList, hem, hout, Bool.false_eq_true,
          if_false]
        simp only [keywordIntent, htox', if_true]
      exact ⟨by rw [h1]; decide, fun _ _ => h1⟩

/-- C3 witness: a message with a toxicity keyword and a valid order number
matching no generative pattern is classified `toxicity` and not
`track_order`. -/
theorem C3_toxicity_priority_witness :
    (recognize_intent_entities "You are stupid, where is order 12345?").intent = "toxicity" :=
  (C3_toxicity_priority "You are stupid, where is order 12345?" (by rfl) (by rfl)).2
    (by rfl) (by rfl)

/-- C5 counterexample: both defects of the suggest-outfit entity rule.
First, "Please suggest an outfit for Red Shoes" is recognized as
`gemini_suggest_outfit` but `product_name` is "Please  Red Shoes" — the
`re.sub` removal keeps the text *before* the trigger phrase — not the text
following the trigger phrase ("Red Shoes").  Second, a message matching the
suggest-outfit pattern can instead be recognized as `gemini_draft_email`
when the higher-priority draft-email pattern also matches. -/
theorem C5_counterexample :
    ((recognize_intent_entities "Please suggest an outfit for Red Shoes").intent =
        "gemini_suggest_outfit" ∧
     (recognize_intent_entities "Please suggest an outfit for Red Shoes").entities.product_name =
        some "Please  Red Shoes" ∧
     "Please  Red Shoes" ≠ "Red Shoes") ∧
    (outfitSearch (lower "draft an email about 12345 and suggest an outfit for jeans").toList =
        true ∧
     (recognize_intent_entities "draft an email about 12345 and suggest an outfit for jeans").intent =
        "gemini_draft_email") :=
  ⟨⟨rfl, rfl, by decide⟩, rfl, rfl⟩

/-- C5 (amended): for every message matching
`suggest .* outfit for [\w\s]` (case-insensitively, on the lowered text)
and not matching the higher-priority pattern `draft .* email about \d{5}`,
recognition yields `gemini_suggest_outfit` and `entities.product_name` is
the original message with every greedy case-insensitive match of
`suggest .* outfit for` removed, trimmed of surrounding whitespace (equal
to the text following the trigger phrase, in original case and trimmed,
whenever nothing precedes the trigger phrase). -/
theorem C5_suggest_outfit_entity (message : String)
    (hem : emailScan (lower message).toList = none)
    (hout : outfitSearch (lower message).toList = true) :
    (recognize_intent_entities message).intent = "gemini_suggest_outfit" ∧
    (recognize_intent_entities message).entities.product_name =
      some (strip (String.mk (outfitSub message.toList))) := by
  have hem' : emailScan (lower message).data = none := hem
  have hout' : outfitSearch (lower message).data = true := hout
  constructor <;> simp [recognize_intent_entities, String.toList, hem', hout', String.mk]

/-- C5 witness: with nothing before the trigger phrase, the extracted
product name is exactly the text following it. -/
theorem C5_suggest_outfit_entity_witness :
    (recognize_intent_entities "suggest an outfit for Red Shoes").intent =
      "gemini_suggest_outfit" ∧
    (recognize_intent_entities "suggest an outfit for Red Shoes").entities.product_name =
      some (strip (String.mk (outfitSub "suggest an outfit for Red Shoes".toList))) :=
  C5_suggest_outfit_entity "suggest an outfit for Red Shoes" (by rfl) (by rfl)

/-- C8: single-intent totality.  `recognize_intent_entities` is a total
function (it terminates on every input by construction) and its intent is
always exactly one tag of the closed twelve-tag set. -/
theorem C8_single_intent_totality (message : String) :
    (recognize_intent_entities message).intent ∈
      ["greet", "faq_shipping", "track_order", "return_item", "product_inquiry",
       "gemini_draft_email", "gemini_suggest_outfit", "toxicity", "injection",
       "medical_advice", "empty_or_nonsensical", "out_of_scope"] := by
  cases hem : emailScan (lower message).data with
  | some d => simp [recognize_intent_entities, String.toList, hem]
  | none =>
    cases hout : outfitSearch (lower message).data with
    | true => simp [recognize_intent_entities, String.toList, hem, hout]
    | false =>
      have h1 : (recognize_intent_entities message).intent =
          keywordIntent (lower message).data message (extractEntities message) := by
        simp [recognize_intent_entities, String.toList, hem, hout]
      rw [h1]
      unfold keywordIntent
      split_ifs <;> simp


/-- One full turn, characterized: the response, resulting pending action
and last intent do not depend on the incoming `gemini_prompt`; the Gemini
prompt is freshly written exactly when the recognized intent is one of the
two Gemini intents, and passes through untouched otherwise. -/
theorem manage_dialogue_master (p li : Option String) (message : String) :
    ∃ resp pa1 pa la,
      (pa1 = none ∨ pa1 = p) ∧
      ((recognize_intent_entities message).intent ≠ "out_of_scope" → truthy pa1 = false) ∧
      (pa = pa1 ∨ pa = some "get_order_track" ∨ pa = some "get_order_return" ∨
        pa = some "get_product_info") ∧
      (la = li ∨ la = some "track_order" ∨ la = some "return_item" ∨
        la = some "product_inquiry") ∧
      ∀ g : Option String,
        manage_dialogue ⟨p, li, g⟩ message =
          (resp, ⟨pa, la,
            if truthy pa1 = false ∧
                (recognize_intent_entities message).intent = "gemini_draft_email" then
              some (emailPrompt (pyStr (recognize_intent_entities message).entities.order_number)
                (track (pyStr (recognize_intent_entities message).entities.order_number)))
            else if truthy pa1 = false ∧
                (recognize_intent_entities message).intent = "gemini_suggest_outfit" then
              some (outfitPrompt (pyStr (recognize_intent_entities message).entities.product_name)
                (get_product_info (pyStr (recognize_intent_entities message).entities.product_name)))
            else g⟩) := by
  obtain ⟨resp1, pa1, hpa1, htr, hslot⟩ :=
    slotPhase_master p li message (recognize_intent_entities message).intent
      (recognize_intent_entities message).entities
  obtain ⟨resp2, pa2, la2, hpa2, hla2, hdisp⟩ :=
    dispatchPhase_master pa1 li (recognize_intent_entities message).intent
      (recognize_intent_entities message).entities resp1
  refine ⟨resp2, pa1, pa2, la2, hpa1, htr, hpa2, hla2, ?_⟩
  intro g
  simp only [manage_dialogue]
  rw [hslot g]
  exact hdisp g

/-- C9: implicit gemini_prompt frame property.  The response, resulting
pending action and last intent never depend on a `gemini_prompt` already
present in the input context (it is never read); the returned context holds
a newly written prompt (the email or outfit prompt built from the message's
entities, independent of the input prompt) exactly when the recognized
intent is `gemini_draft_email` or `gemini_suggest_outfit`, and otherwise
the input prompt passes through unremoved and unchanged. -/
theorem C9_gemini_prompt_frame (ctx : Ctx) (message : String) :
    (∀ g : Option String,
      (manage_dialogue { ctx with gemini_prompt := g } message).1 =
        (manage_dialogue ctx message).1 ∧
      (manage_dialogue { ctx with gemini_prompt := g } message).2.pending_action =
        (manage_dialogue ctx message).2.pending_action ∧
      (manage_dialogue { ctx with gemini_prompt := g } message).2.last_intent =
        (manage_dialogue ctx message).2.last_intent) ∧
    ((recognize_intent_entities message).intent = "gemini_draft_email" →
      (manage_dialogue ctx message).2.gemini_prompt =
        some (emailPrompt (pyStr (recognize_intent_entities message).entities.order_number)
          (track (pyStr (recognize_intent_entities message).entities.order_number)))) ∧
    ((recognize_intent_entities message).intent = "gemini_suggest_outfit" →
      (manage_dialogue ctx message).2.gemini_prompt =
        some (outfitPrompt (pyStr (recognize_intent_entities message).entities.product_name)
          (get_product_info (pyStr (recognize_intent_entities message).entities.product_name)))) ∧
    ((recognize_intent_entities message).intent ≠ "gemini_draft_email" →
      (recognize_intent_entities message).intent ≠ "gemini_suggest_outfit" →
      (manage_dialogue ctx message).2.gemini_prompt = ctx.gemini_prompt) := by
  obtain ⟨p, li, g0⟩ := ctx
  dsimp only
  obtain ⟨resp, pa1, pa, la, hpa1, htr, hpa, hla, hman⟩ := manage_dialogue_master p li message
  refine ⟨?_, ?_, ?_, ?_⟩
  · intro g
    rw [hman g, hman g0]
    exact ⟨rfl, rfl, rfl⟩
  · intro hi
    have hno : truthy pa1 = false := htr (by rw [hi]; decide)
    rw [hman g0]
    simp [hi, hno]
  · intro hi
    have hno : truthy pa1 = false := htr (by rw [hi]; decide)
    rw [hman g0]
    simp [hi, hno]
  · intro hi1 hi2
    rw [hman g0]
    simp [hi1, hi2]

/-- C9 witness: a stale queued prompt in the input context is overwritten
by the freshly composed draft-email prompt when the intent is
`gemini_draft_email`. -/
theorem C9_gemini_prompt_frame_witness :
    (manage_dialogue ⟨none, none, some "stale"⟩ "✨ Draft a support email about 99999").2.gemini_prompt =
      some (emailPrompt "99999" (track "99999")) :=
  ((C9_gemini_prompt_frame ⟨none, none, some "stale"⟩
    "✨ Draft a support email about 99999").2.1 (by rfl)).trans (by rfl)

/-- The per-turn preservation of the reachable-context invariant: one
`manage_dialogue` call writes only the three slot-filling actions (or
clears) into `pending_action` and only the three domain intents into
`last_intent`. -/
theorem manage_dialogue_inv (c : Ctx) (m : String) (h : ctxInv c) :
    ctxInv (manage_dialogue c m).2 := by
  obtain ⟨p, li, g0⟩ := c
  obtain ⟨resp, pa1, pa, la, hpa1, htr, hpa, hla, hman⟩ := manage_dialogue_master p li m
  rw [hman g0]
  obtain ⟨hp, hl⟩ := h
  constructor
  · show pa = none ∨ pa = some "get_order_track" ∨ pa = some "get_order_return" ∨
      pa = some "get_product_info"
    rcases hpa with h2 | h2 | h2 | h2
    · rcases hpa1 with h1 | h1
      · rw [h2, h1]; left; rfl
      · rw [h2, h1]; exact hp
    · rw [h2]; right; left; rfl
    · rw [h2]; right; right; left; rfl
    · rw [h2]; right; right; right; rfl
  · show la = none ∨ la = some "track_order" ∨ la = some "return_item" ∨
      la = some "product_inquiry"
    rcases hla with h2 | h2 | h2 | h2
    · rw [h2]; exact hl
    · rw [h2]; right; left; rfl
    · rw [h2]; right; right; left; rfl
    · rw [h2]; right; right; right; rfl

/-- C10: implicit reachable-context invariant.  Starting from the empty
context, after any sequence of turns the resulting context's
`pending_action`, when present, is one of the three slot-filling actions
and its `last_intent`, when present, is one of the three domain intents:
no other value is ever written to these fields. -/
theorem C10_reachable_context_invariant (msgs : List String) : ctxInv (runMessages msgs) := by
  have gen : ∀ (l : List String) (c : Ctx), ctxInv c →
      ctxInv (l.foldl (fun c m => (manage_dialogue c m).2) c) := by
    intro l
    induction l with
    | nil => intro c h; exact h
    | cons m rest ih =>
      intro c h
      exact ih _ (manage_dialogue_inv c m h)
  exact gen msgs ⟨none, none, none⟩ ⟨Or.inl rfl, Or.inl rfl⟩


/-! ## Whitespace-only messages (C7) -/


theorem strip_empty_allSpace (s : String) (h : strip s = "") : allSpace s.toList := by
  have hl : stripChars s.toList = [] := by
    have := congrArg String.data h
    simpa [strip] using this
  unfold stripChars at hl
  have h2 : (s.toList.dropWhile isSpaceChar).reverse.dropWhile isSpaceChar = [] := by
    simpa using congrArg List.reverse hl
  have h3 : ∀ c ∈ (s.toList.dropWhile isSpaceChar).reverse, isSpaceChar c = true :=
    List.dropWhile_eq_nil_iff.mp h2
  have h4 : ∀ c ∈ s.toList.dropWhile isSpaceChar, isSpaceChar c = true := by
    intro c hc
    exact h3 c (List.mem_reverse.mpr hc)
  intro c hc
  rw [← List.takeWhile_append_dropWhile (p := isSpaceChar) (l := s.toList)] at hc
  rcases List.mem_append.mp hc with hc | hc
  · exact List.mem_takeWhile_imp hc
  · exact h4 c hc

theorem space_not_digit (c : Char) (h : isSpaceChar c = true) : c.isDigit = false := by
  simp only [isSpaceChar, Bool.or_eq_true, decide_eq_true_eq] at h
  rcases h with ((((h | h) | h) | h) | h) | h <;> subst h <;> decide

theorem space_not_quote (c : Char) (h : isSpaceChar c = true) : isQuoteChar c = false := by
  simp only [isSpaceChar, Bool.or_eq_true, decide_eq_true_eq] at h
  rcases h with ((((h | h) | h) | h) | h) | h <;> subst h <;> decide

theorem space_toLower (c : Char) (h : isSpaceChar c = true) : c.toLower = c := by
  simp only [isSpaceChar, Bool.or_eq_true, decide_eq_true_eq] at h
  rcases h with ((((h | h) | h) | h) | h) | h <;> subst h <;> decide

theorem allSpace_lower (l : List Char) (h : allSpace l) : allSpace (lowerChars l) := by
  intro c hc
  rcases List.mem_map.mp hc with ⟨a, ha, rfl⟩
  rw [space_toLower a (h a ha)]
  exact h a ha

theorem startsWithL_space (w l : List Char) (hne : w ≠ []) (hw : isSpaceChar w.headI = false)
    (h : allSpace l) : startsWithL w l = false := by
  rcases w with _ | ⟨w0, ws⟩
  · exact absurd rfl hne
  cases l with
  | nil => rfl
  | cons c cs =>
    have hc := h c (List.mem_cons_self c cs)
    have hw0 : isSpaceChar w0 = false := by simpa using hw
    have : w0 ≠ c := fun he => by rw [he, hc] at hw0; cases hw0
    simp [startsWithL, this]

theorem containsSub_space (w : List Char) (hne : w ≠ []) (hw : isSpaceChar w.headI = false) :
    ∀ l, allSpace l → containsSub w l = false := by
  intro l
  induction l with
  | nil =>
    intro _
    rcases w with _ | ⟨w0, ws⟩
    · exact absurd rfl hne
    · rfl
  | cons c cs ih =>
    intro h
    have h1 : allSpace cs := fun x hx => h x (List.mem_cons_of_mem c hx)
    rcases w with _ | ⟨w0, ws⟩
    · exact absurd rfl hne
    · simp only [containsSub, startsWithL_space (w0 :: ws) (c :: cs) hne hw h, ih h1,
        Bool.or_self]

theorem orderAt_space (c : Char) (l : List Char) (hc : c.isDigit = false) :
    orderAt (c :: l) = none := by
  cases l with
  | nil => rfl
  | cons b l2 =>
    cases l2 with
    | nil => rfl
    | cons c2 l3 =>
      cases l3 with
      | nil => rfl
      | cons d l4 =>
        cases l4 with
        | nil => rfl
        | cons e l5 => simp [orderAt, hc]

theorem orderScan_space : ∀ (l : List Char) (prev : Option Char), allSpace l →
    orderScan prev l = none := by
  intro l
  induction l with
  | nil => intro _ _; rfl
  | cons c cs ih =>
    intro prev h
    have hc := h c (List.mem_cons_self c cs)
    have h1 : allSpace cs := fun x hx => h x (List.mem_cons_of_mem c hx)
    have hat := orderAt_space c cs (space_not_digit c hc)
    unfold orderScan
    rcases prev with _ | p <;> simp [hat, ih (some c) h1]

theorem prodScan_space : ∀ l : List Char, allSpace l → prodScan l = none := by
  intro l
  induction l with
  | nil => intro _; rfl
  | cons c cs ih =>
    intro h
    have h1 : allSpace cs := fun x hx => h x (List.mem_cons_of_mem c hx)
    have ht : prodTriggerAt (c :: cs) = none := by
      unfold prodTriggerAt
      rw [startsWithL_space "about the ".toList (c :: cs) (by decide) (by decide) h,
        startsWithL_space "of the ".toList (c :: cs) (by decide) (by decide) h,
        startsWithL_space "for the ".toList (c :: cs) (by decide) (by decide) h]
      rfl
    unfold prodScan
    rw [ht]
    exact ih h1

theorem quotedScan_space : ∀ l : List Char, allSpace l → quotedScan l = none := by
  intro l
  induction l with
  | nil => intro _; rfl
  | cons c cs ih =>
    intro h
    have hc := h c (List.mem_cons_self c cs)
    have h1 : allSpace cs := fun x hx => h x (List.mem_cons_of_mem c hx)
    unfold quotedScan
    rw [space_not_quote c hc]
    simp only [Bool.false_eq_true, if_false]
    exact ih h1

theorem emailScan_space : ∀ l : List Char, allSpace l → emailScan l = none := by
  intro l
  induction l with
  | nil => intro _; rfl
  | cons c cs ih =>
    intro h
    have h1 : allSpace cs := fun x hx => h x (List.mem_cons_of_mem c hx)
    unfold emailScan
    rw [startsWithL_space "draft ".toList (c :: cs) (by decide) (by decide) h]
    simp only [Bool.false_eq_true, if_false]
    exact ih h1

theorem outfitSearch_space : ∀ l : List Char, allSpace l → outfitSearch l = false := by
  intro l
  induction l with
  | nil => intro _; rfl
  | cons c cs ih =>
    intro h
    have h1 : allSpace cs := fun x hx => h x (List.mem_cons_of_mem c hx)
    unfold outfitSearch
    rw [startsWithL_space "suggest ".toList (c :: cs) (by decide) (by decide) h]
    simp only [Bool.false_and, Bool.false_or]
    exact ih h1

theorem wordAltScan_space (ws : List (List Char))
    (hws : ∀ w ∈ ws, w ≠ [] ∧ isSpaceChar w.headI = false) :
    ∀ (l : List Char) (prev : Option Char), allSpace l → wordAltScan ws prev l = false := by
  intro l
  induction l with
  | nil => intro _ _; rfl
  | cons c cs ih =>
    intro prev h
    have h1 : allSpace cs := fun x hx => h x (List.mem_cons_of_mem c hx)
    have hany : (ws.any fun w => wordAltAt w (c :: cs)) = false := by
      rw [List.any_eq_false]
      intro w hw
      obtain ⟨hne, hsp⟩ := hws w hw
      simp only [wordAltAt]
      rw [startsWithL_space w (c :: cs) hne hsp h]
      simp
    unfold wordAltScan
    rw [hany]
    simp only [Bool.and_false, Bool.false_or]
    exact ih (some c) h1

theorem greetMatch_space (l : List Char) (h : allSpace l) : greetMatch l = false := by
  unfold greetMatch
  unfold wordAltAt
  rw [startsWithL_space "hi".toList l (by decide) (by decide) h,
    startsWithL_space "hello".toList l (by decide) (by decide) h,
    startsWithL_space "hey".toList l (by decide) (by decide) h]
  rfl

theorem containsAny_space (l : List Char) (ws : List String) (h : allSpace l)
    (hws : ∀ w ∈ ws, w.toList ≠ [] ∧ isSpaceChar w.toList.headI = false) :
    containsAny l ws = false := by
  unfold containsAny
  rw [List.any_eq_false]
  intro w hw
  have h2 : containsSub w.data l = false :=
    containsSub_space w.toList (hws w hw).1 (hws w hw).2 l h
  simp [h2]

theorem recognize_space (message : String) (h : strip message = "") :
    recognize_intent_entities message = ⟨"empty_or_nonsensical", ⟨none, none⟩⟩ := by
  have hraw : allSpace message.toList := strip_empty_allSpace message h
  have hml : allSpace (lower message).toList := by
    show allSpace (lower message).data
    simpa [lower, lowerChars] using allSpace_lower message.toList hraw
  have hord : orderScan none message.toList = none := orderScan_space _ none hraw
  have hprod : prodScan (lower message).toList = none := prodScan_space _ hml
  have hquot : quotedScan message.toList = none := quotedScan_space _ hraw
  have hemail : emailScan (lower message).toList = none := emailScan_space _ hml
  have houtfit : outfitSearch (lower message).toList = false := outfitSearch_space _ hml
  have hent : extractEntities message = ⟨none, none⟩ := by
    unfold extractEntities
    rw [hord, hprod, hquot]
  have hkw : keywordIntent (lower message).toList message ⟨none, none⟩ =
      "empty_or_nonsensical" := by
    unfold keywordIntent
    have htox := containsAny_space _ ["stupid", "terrible", "hate"] hml (by decide)
    have hinj := containsAny_space _ ["ignore all", "system password", "previous instructions"]
      hml (by decide)
    have hmed := containsAny_space _ ["rash", "medical", "health"] hml (by decide)
    have hgreet := greetMatch_space _ hml
    have htrack : wordAlt (lower message).toList
        ["track", "trak", "where is", "status of", "stuff shipped", "package arrive"] = false := by
      unfold wordAlt
      exact wordAltScan_space _ (by decide) _ none hml
    have hret : wordAlt (lower message).toList ["return", "refund"] = false := by
      unfold wordAlt
      exact wordAltScan_space _ (by decide) _ none hml
    have hpi : wordAlt (lower message).toList
        ["stock", "price", "about the", "features of", "do you have"] = false := by
      unfold wordAlt
      exact wordAltScan_space _ (by decide) _ none hml
    have hfaq : containsSub "shipping policy".toList (lower message).toList = false :=
      containsSub_space "shipping policy".toList (by decide) (by decide) _ hml
    rw [htox, hinj, hmed, hgreet, htrack, hret, hpi, hfaq]
    simp [truthy, h]
  have hemail2 : emailScan (lower message).data = none := hemail
  have houtfit2 : outfitSearch (lower message).data = false := houtfit
  have hkw2 : keywordIntent (lower message).data message ⟨none, none⟩ =
      "empty_or_nonsensical" := hkw
  simp only [recognize_intent_entities, String.toList, hemail2, houtfit2, Bool.false_eq_true,
    if_false]
  rw [hent, hkw2]

theorem dispatchPhase_empty (p li g : Option String) (e : Entities) (r : String)
    (hp : truthy p = false) :
    dispatchPhase ⟨p, li, g⟩ "empty_or_nonsensical" e r =
      ("I'm sorry, I didn't understand that. Please try again.", ⟨p, li, g⟩) := by
  simp [dispatchPhase, hp]

/-- C7: idempotent fallback.  For every context — whatever its pending
action, last intent or queued prompt — and every blank or whitespace-only
message, the turn returns the canned `empty_or_nonsensical` response. -/
theorem C7_blank_message_fallback (ctx : Ctx) (message : String) (h : strip message = "") :
    (manage_dialogue ctx message).1 =
      "I'm sorry, I didn't understand that. Please try again." := by
  obtain ⟨p, li, g0⟩ := ctx
  have hrec := recognize_space message h
  obtain ⟨resp1, pa1, hpa1, htr, hslot⟩ :=
    slotPhase_master p li message (recognize_intent_entities message).intent
      (recognize_intent_entities message).entities
  have hno : truthy pa1 = false := htr (by rw [hrec]; decide)
  have hi2 : (recognize_intent_entities message).intent = "empty_or_nonsensical" := by
    rw [hrec]
  simp only [manage_dialogue]
  rw [hslot g0, hi2]
  exact congrArg Prod.fst (dispatchPhase_empty pa1 li g0 _ resp1 hno)

/-- C7 witness: a whitespace-only message with a pending return slot-fill
and a stale queued prompt still gets the canned response. -/
theorem C7_blank_message_fallback_witness :
    (manage_dialogue ⟨some "get_order_return", none, some "q"⟩ " ").1 =
      "I'm sorry, I didn't understand that. Please try again." :=
  C7_blank_message_fallback ⟨some "get_order_return", none, some "q"⟩ " " (by rfl)


/-! ## The order-number extraction rule (C4) -/

theorem boundedRun5From_succ (b0 : Bool) (isB : Char → Bool) (c : Char) (rest : List Char)
    (i : Nat) :
    boundedRun5From b0 isB (c :: rest) (i + 1) = boundedRun5From (isB c) isB rest i := by
  unfold boundedRun5From
  have h1 : decide (i + 1 + 5 ≤ (c :: rest).length) = decide (i + 5 ≤ rest.length) := by
    simp only [List.length_cons]
    exact decide_eq_decide.mpr (by omega)
  have h2 : ((List.range 5).all fun j => ((c :: rest).getD (i + 1 + j) ' ').isDigit) =
      ((List.range 5).all fun j => (rest.getD (i + j) ' ').isDigit) := by
    have hfun : (fun j => ((c :: rest).getD (i + 1 + j) ' ').isDigit) =
        (fun j => (rest.getD (i + j) ' ').isDigit) := by
      funext j
      rw [show i + 1 + j = (i + j) + 1 from by omega, List.getD_cons_succ]
    rw [hfun]
  have h3 : (if i + 1 = 0 then b0 else isB ((c :: rest).getD (i + 1 - 1) ' ')) =
      (if i = 0 then isB c else isB (rest.getD (i - 1) ' ')) := by
    rw [if_neg (by omega)]
    cases i with
    | zero => rfl
    | succ k =>
      rw [if_neg (by omega)]
      rw [show k + 1 + 1 - 1 = k + 1 from by omega, List.getD_cons_succ]
      rfl
  have h4 : (decide (i + 1 + 5 = (c :: rest).length) || isB ((c :: rest).getD (i + 1 + 5) ' ')) =
      (decide (i + 5 = rest.length) || isB (rest.getD (i + 5) ' ')) := by
    have ha : decide (i + 1 + 5 = (c :: rest).length) = decide (i + 5 = rest.length) := by
      simp only [List.length_cons]
      exact decide_eq_decide.mpr (by omega)
    rw [ha, show i + 1 + 5 = (i + 5) + 1 from by omega, List.getD_cons_succ]
  rw [h1, h2, h3, h4]

theorem firstFrom_cons (b0 : Bool) (isB : Char → Bool) (c : Char) (rest : List Char) :
    firstFrom b0 isB (c :: rest) =
      if boundedRun5From b0 isB (c :: rest) 0 = true then
        some (String.mk ((c :: rest).take 5))
      else firstFrom (isB c) isB rest := by
  unfold firstFrom
  have hr : List.range (c :: rest).length =
      0 :: (List.range rest.length).map Nat.succ := by
    simp only [List.length_cons]
    exact List.range_succ_eq_map rest.length
  rw [hr, List.filter_cons]
  have hmap : ((List.range rest.length).map Nat.succ).filter (boundedRun5From b0 isB (c :: rest)) =
      ((List.range rest.length).filter (boundedRun5From (isB c) isB rest)).map Nat.succ := by
    rw [List.filter_map]
    congr 1
    apply List.filter_congr
    intro j _
    show boundedRun5From b0 isB (c :: rest) (j + 1) = boundedRun5From (isB c) isB rest j
    exact boundedRun5From_succ b0 isB c rest j
  by_cases h0 : boundedRun5From b0 isB (c :: rest) 0 = true
  · simp only [h0, eq_self_iff_true, if_true, List.drop_zero]
  · have h0' : boundedRun5From b0 isB (c :: rest) 0 = false := by
      revert h0; cases boundedRun5From b0 isB (c :: rest) 0 <;> simp
    rw [if_neg h0]
    simp only [h0', Bool.false_eq_true, if_false]
    rw [hmap]
    cases hf : (List.range rest.length).filter (boundedRun5From (isB c) isB rest) with
    | nil => rfl
    | cons i is =>
      simp only [List.map_cons]
      rw [List.drop_succ_cons]

set_option maxHeartbeats 1000000 in
theorem orderAt_boundedRun (t : List Char) (b : Bool) :
    (if b = true then orderAt t else none) =
      (if boundedRun5From b nonWordBoundary t 0 = true then
        some (String.mk (t.take 5))
      else none) := by
  cases b with
  | false =>
    simp only [Bool.false_eq_true, if_false]
    have hf : boundedRun5From false nonWordBoundary t 0 = false := by
      unfold boundedRun5From
      simp
    rw [hf]
    simp
  | true =>
    simp only [if_pos rfl]
    match t with
    | [] => rfl
    | [a] => rfl
    | [a, b2] => rfl
    | [a, b2, c] => rfl
    | [a, b2, c, d] => rfl
    | a :: b2 :: c :: d :: e :: rest =>
      cases rest with
      | nil =>
        cases ha : a.isDigit <;> cases hb : b2.isDigit <;> cases hc : c.isDigit <;>
          cases hd : d.isDigit <;> cases he : e.isDigit <;>
          simp [orderAt, boundedRun5From, List.range_succ, List.getD, ha, hb, hc, hd, he]
      | cons f rest2 =>
        cases ha : a.isDigit <;> cases hb : b2.isDigit <;> cases hc : c.isDigit <;>
          cases hd : d.isDigit <;> cases he : e.isDigit <;>
          simp [orderAt, boundedRun5From, nonWordBoundary, List.range_succ, List.getD,
            ha, hb, hc, hd, he]

theorem orderScan_eq_firstFrom : ∀ (l : List Char) (prev : Option Char),
    orderScan prev l =
      firstFrom (match prev with | none => true | some p => !isWordChar p)
        nonWordBoundary l := by
  intro l
  induction l with
  | nil =>
    intro prev
    rfl
  | cons c rest ih =>
    intro prev
    unfold orderScan
    dsimp only
    rw [orderAt_boundedRun (c :: rest) (match prev with | none => true | some p => !isWordChar p)]
    rw [firstFrom_cons]
    by_cases h0 : boundedRun5From (match prev with | none => true | some p => !isWordChar p)
        nonWordBoundary (c :: rest) 0 = true
    · rw [if_pos h0, if_pos h0]
    · rw [if_neg h0, if_neg h0]
      have := ih (some c)
      simpa [nonWordBoundary] using this

theorem boundedRun5At_eq_from (isB : Char → Bool) (s : List Char) :
    ∀ i ∈ List.range s.length, boundedRun5At isB s i = boundedRun5From true isB s i := by
  intro i _
  unfold boundedRun5At boundedRun5From
  cases i with
  | zero => simp
  | succ k => simp

theorem firstBoundedRun5_eq_firstFrom (isB : Char → Bool) (s : List Char) :
    firstBoundedRun5 isB s = firstFrom true isB s := by
  unfold firstBoundedRun5 firstFrom
  rw [List.filter_congr (boundedRun5At_eq_from isB s)]

/-- C4 counterexample: with the claim's non-digit boundaries the text
"a12345" holds the standalone run "12345" (the letter 'a' is not a digit),
but extraction returns nothing: the regex `\b` is a *word* boundary, and a
letter adjacent to a digit is no boundary. -/
theorem C4_counterexample :
    firstBoundedRun5 nonDigitBoundary "a12345".toList = some "12345" ∧
    (recognize_intent_entities "a12345").entities.order_number = none ∧
    searchOrderNumber "a12345" = none :=
  ⟨rfl, rfl, rfl⟩

/-- C4 (amended): for every input text, extraction returns the first run of
exactly five digits bounded on both sides by non-word boundaries (start/end
of text or a character that is not a letter, digit or underscore), and
omits the order number when no such run exists; the recognizer's entity
field carries exactly this value whenever the draft-email pattern (which
overwrites it) did not match. -/
theorem C4_order_number_extraction (message : String) :
    searchOrderNumber message = firstBoundedRun5 nonWordBoundary message.toList ∧
    ((recognize_intent_entities message).intent ≠ "gemini_draft_email" →
      (recognize_intent_entities message).entities.order_number =
        firstBoundedRun5 nonWordBoundary message.toList) := by
  have hmain : searchOrderNumber message = firstBoundedRun5 nonWordBoundary message.toList := by
    unfold searchOrderNumber
    rw [orderScan_eq_firstFrom message.toList none, firstBoundedRun5_eq_firstFrom]
  refine ⟨hmain, ?_⟩
  intro hi
  have hmain2 : orderScan none message.data = firstBoundedRun5 nonWordBoundary message.toList :=
    hmain
  cases hem : emailScan (lower message).data with
  | some d =>
    exfalso
    exact hi (by simp [recognize_intent_entities, String.toList, hem])
  | none =>
    cases hout : outfitSearch (lower message).data with
    | true =>
      have : (recognize_intent_entities message).entities.order_number =
          orderScan none message.data := by
        simp [recognize_intent_entities, String.toList, hem, hout, extractEntities]
      rw [this, hmain2]
    | false =>
      have : (recognize_intent_entities message).entities.order_number =
          orderScan none message.data := by
        simp [recognize_intent_entities, String.toList, hem, hout, extractEntities]
      rw [this, hmain2]

/-- C4 witness: the amended extraction rule applied where the run is
preceded by a hash sign (a non-word character). -/
theorem C4_order_number_extraction_witness :
    (recognize_intent_entities "track... my order?!? #12345").entities.order_number =
      firstBoundedRun5 nonWordBoundary "track... my order?!? #12345".toList :=
  (C4_order_number_extraction "track... my order?!? #12345").2 (by decide)

end BotLogic



